import Mathlib

/-!
Verification of the ATS scoring engine (`backend/ats.py`) of the ResBot
repository, as a shallow embedding in Lean 4.

Modelling conventions:
* Python strings are Lean `String`s; only ASCII data is relevant to the
  scorer, so `str.lower()` / `str.strip()` / regex character classes are
  modelled at ASCII precision.
* Python `float` arithmetic is modelled as exact rational arithmetic (`ℚ`).
* Python sets of strings are modelled as duplicate-free lists (`List.dedup`
  of the insertion sequence); all downstream uses are cardinalities,
  membership tests, and conversion to lists, so any canonical duplicate-free
  representation is faithful (Python's own set iteration order is
  hash-seed dependent and not semantically fixed).
* `datetime.now().year` (read inside `_extract_years_experience`) is an
  ambient input; it is modelled as an explicit `current_year : ℕ` parameter
  threaded through `score_ats`.
* The first guard clause of `score_ats` fires when the resume argument is
  `None`, not a dict, or a falsy (empty) dict; all those inputs are modelled
  by `Option.none`, while `some r` models a non-empty dict structured as a
  `Resume` record.
-/

/-- Character class `[A-Za-z0-9+#.]` of the tokenizer regex in `_tokenize`. -/
def isTokChar (c : Char) : Bool :=
  decide ('A' ≤ c ∧ c ≤ 'Z') || decide ('a' ≤ c ∧ c ≤ 'z') ||
  decide ('0' ≤ c ∧ c ≤ '9') || c == '+' || c == '#' || c == '.'

/-- One step of splitting a character list into maximal runs of token
characters (processed by `List.foldr`, i.e. right to left). -/
def tokStep (c : Char) (acc : List Char × List (List Char)) :
    List Char × List (List Char) :=
  if isTokChar c then (c :: acc.1, acc.2)
  else if acc.1.isEmpty then acc else ([], acc.1 :: acc.2)

/-- Maximal runs matching `[A-Za-z0-9+#.]+`, in left-to-right order;
models `re.findall(r"[A-Za-z0-9+#.]+", text)`. -/
def tokenRuns (cs : List Char) : List (List Char) :=
  let r := cs.foldr tokStep ([], [])
  if r.1.isEmpty then r.2 else r.1 :: r.2

/-- Model of `_tokenize`: maximal `[A-Za-z0-9+#.]+` runs, each lower-cased
(`t.lower()` is ASCII lowering on these character classes). -/
def _tokenize (s : String) : List String :=
  (tokenRuns s.toList).map (fun run => String.mk (run.map Char.toLower))

/-- ASCII whitespace, the (ASCII fragment of the) class stripped by Python
`str.strip()` and matched by the regex class `\s`. -/
def isSpaceChar (c : Char) : Bool :=
  c == ' ' || c == '\t' || c == '\n' || c == '\r' || c == '\x0b' || c == '\x0c'

/-- Model of Python `str.strip()` on a character list. -/
def stripChars (cs : List Char) : List Char :=
  ((cs.dropWhile isSpaceChar).reverse.dropWhile isSpaceChar).reverse

/-- Model of Python `str.strip()`. -/
def stripStr (s : String) : String :=
  String.mk (stripChars s.toList)

/-- Model of Python `str.lower()` (ASCII precision). -/
def lowerStr (s : String) : String :=
  String.mk (s.toList.map Char.toLower)

/-- The `contact_info` sub-record of a resume. -/
structure ContactInfo where
  full_name : String := ""
  email : String := ""
  phone : String := ""
  location : String := ""
deriving DecidableEq, Inhabited

/-- An `education` entry of a resume. -/
structure Education where
  institution : String := ""
  degree : String := ""
  field : String := ""
  location : String := ""
  graduation_date : String := ""
  gpa : String := ""
deriving DecidableEq, Inhabited

/-- An `experience` entry of a resume. -/
structure Experience where
  company : String := ""
  position : String := ""
  location : String := ""
  start_date : String := ""
  end_date : String := ""
  achievements : List String := []
deriving DecidableEq, Inhabited

/-- A `projects` entry of a resume. -/
structure Project where
  title : String := ""
  description : String := ""
  technologies : List String := []
  bullets : List String := []
deriving DecidableEq, Inhabited

/-- The resume record consumed by `score_ats`.  `links` models the value
sequence `links.values()`; `skills` models the ordered mapping from category
label to skill list; `certifications` entries are modelled in their string
form. -/
structure Resume where
  contact_info : ContactInfo := {}
  links : List String := []
  summary : String := ""
  education : List Education := []
  experience : List Experience := []
  projects : List Project := []
  certifications : List String := []
  skills : List (String × List String) := []
  languages : List String := []
deriving DecidableEq, Inhabited

/-- Model of `_flatten_resume`: concatenate every (non-empty) textual field
in the source's fixed order, joined by `" \n "`. -/
def _flatten_resume (r : Resume) : String :=
  let parts : List String :=
    [r.contact_info.full_name, r.contact_info.email, r.contact_info.phone,
      r.contact_info.location]
    ++ (r.links.filter (fun v => v != ""))
    ++ [r.summary]
    ++ (r.education.map (fun e =>
          [e.institution, e.degree, e.field, e.location, e.graduation_date,
            e.gpa])).flatten
    ++ (r.experience.map (fun e =>
          [e.company, e.position, e.location, e.start_date, e.end_date]
            ++ e.achievements)).flatten
    ++ (r.projects.map (fun p =>
          [p.title, p.description] ++ p.technologies ++ p.bullets)).flatten
    ++ r.certifications
    ++ (r.skills.map (fun cs => cs.1 :: cs.2)).flatten
    ++ r.languages
  String.intercalate " \n " (parts.filter (fun p => p != ""))

/-- Word character class `\w` (ASCII precision), used by the `\b` word
boundaries of the year regex and by `^\w+\.\w+`. -/
def isWordChar (c : Char) : Bool :=
  decide ('A' ≤ c ∧ c ≤ 'Z') || decide ('a' ≤ c ∧ c ≤ 'z') ||
  decide ('0' ≤ c ∧ c ≤ '9') || c == '_'

/-- Numeric value of a decimal digit character. -/
def digitVal (c : Char) : ℕ := c.toNat - 48

/-- Attempt to match `\b(19|20)\d{2}\b` at the current position, given the
character immediately before the position (`none` at the string start). -/
def yearHere (prev : Option Char) (cs : List Char) : Option ℕ :=
  match cs with
  | c1 :: c2 :: c3 :: c4 :: rest =>
    if (match prev with | none => true | some p => !isWordChar p)
        && ((c1 == '1' && c2 == '9') || (c1 == '2' && c2 == '0'))
        && c3.isDigit && c4.isDigit
        && (match rest with | [] => true | d :: _ => !isWordChar d) then
      some (1000 * digitVal c1 + 100 * digitVal c2 + 10 * digitVal c3
        + digitVal c4)
    else
      none
  | _ => none

/-- Leftmost match of `re.search(r'\b(19|20)\d{2}\b', ...)`: try each start
position from the left. -/
def findYear : Option Char → List Char → Option ℕ
  | _, [] => none
  | prev, c :: cs =>
    match yearHere prev (c :: cs) with
    | some y => some y
    | none => findYear (some c) cs

/-- Boolean prefix test on character lists. -/
def isPrefixOfB : List Char → List Char → Bool
  | [], _ => true
  | _ :: _, [] => false
  | a :: as, b :: bs => a == b && isPrefixOfB as bs

/-- Boolean contiguous-substring test (`needle in hay` for Python strings,
with a non-empty needle). -/
def containsSub (needle : List Char) : List Char → Bool
  | [] => needle.isEmpty
  | h :: t => isPrefixOfB needle (h :: t) || containsSub needle t

/-- Model of `re.search(r'(?i)(present|current|now)', date_str)` viewed as a
Boolean: case-insensitive substring occurrence of one of the three words. -/
def containsPCN (s : String) : Bool :=
  let low := s.toList.map Char.toLower
  containsSub "present".toList low || containsSub "current".toList low ||
    containsSub "now".toList low

/-- Model of the inner `extract_year` of `_extract_years_experience`: the
first `\b(19|20)\d{2}\b` match, else `current_year` (both the
present/current/now branch and the final fallback of the source return
`current_year`). -/
def extract_year (current_year : ℕ) (s : String) : ℕ :=
  match findYear none s.toList with
  | some y => y
  | none => if containsPCN s then current_year else current_year

/-- Model of `_extract_years_experience`: per-entry contribution in years. -/
def _extract_years_experience (current_year : ℕ)
    (start_date end_date : String) : ℚ :=
  if start_date ≠ "" then
    let start_year := extract_year current_year start_date
    let end_year :=
      if end_date ≠ "" then extract_year current_year end_date
      else current_year
    max 0 ((end_year : ℚ) - (start_year : ℚ))
  else
    1/2

/-- Sum of per-entry year contributions over all experience entries
(the `total_years` accumulation loop of `score_ats`). -/
def totalYears (current_year : ℕ) (r : Resume) : ℚ :=
  (r.experience.map (fun e =>
    _extract_years_experience current_year e.start_date e.end_date)).sum

/-- Model of Python's `round` on our exact-rational model of floats:
round half to even. -/
def pyRound (q : ℚ) : ℤ :=
  let n := ⌊q⌋
  if q - n < 1/2 then n
  else if (1 : ℚ)/2 < q - n then n + 1
  else if n % 2 = 0 then n else n + 1

/-- Model of `len(A & B)`-style set intersection on duplicate-free lists:
keep the elements of `a` that occur in `b`. -/
def interList (a b : List String) : List String :=
  a.filter (fun t => decide (t ∈ b))

/-- Model of `A - B` set difference on duplicate-free lists. -/
def diffList (a b : List String) : List String :=
  a.filter (fun t => decide (t ∉ b))

/-- Character classes occurring in the four title regex patterns of
`_calculate_title_similarity`: `\s` and `[^\n\r,]`. -/
inductive CharCls where
  | wsp
  | notNlComma
deriving DecidableEq

/-- Membership in a pattern character class. -/
def clsMem : CharCls → Char → Bool
  | .wsp, c => isSpaceChar c
  | .notNlComma, c => !(c == '\n' || c == '\r' || c == ',')

/-- Abstract syntax of the fragment of Python regex used by the four title
patterns: literals, concatenation, ordered alternation, greedy `\s*` / `\s+`,
greedy `?`, and a single capture group `([c]+)` (greedy `capG`) or `([c]+?)`
(lazy `capL`). -/
inductive RE where
  | lit (s : List Char)
  | seq (a b : RE)
  | alt (a b : RE)
  | starG (c : CharCls)
  | plusG (c : CharCls)
  | opt (a : RE)
  | capG (c : CharCls)
  | capL (c : CharCls)

/-- Combine the capture of two sequenced sub-matches (each pattern contains
at most one group). -/
def mergeCap (a b : Option (List Char)) : Option (List Char) :=
  match a with
  | some x => some x
  | none => b

/-- All ways a regex can match a prefix of `s`, as `(capture, rest)` pairs in
Python backtracking preference order: alternatives left first, greedy
quantifiers longest first, lazy quantifiers shortest first. -/
def mMatch : RE → List Char → List (Option (List Char) × List Char)
  | .lit p, s => if isPrefixOfB p s then [(none, s.drop p.length)] else []
  | .seq a b, s =>
    (mMatch a s).flatMap (fun pr =>
      (mMatch b pr.2).map (fun qr => (mergeCap pr.1 qr.1, qr.2)))
  | .alt a b, s => mMatch a s ++ mMatch b s
  | .starG c, s =>
    let n := (s.takeWhile (clsMem c)).length
    (List.range (n+1)).reverse.map (fun k => (none, s.drop k))
  | .plusG c, s =>
    let n := (s.takeWhile (clsMem c)).length
    (List.range n).reverse.map (fun k => (none, s.drop (k+1)))
  | .opt a, s => mMatch a s ++ [(none, s)]
  | .capG c, s =>
    let n := (s.takeWhile (clsMem c)).length
    (List.range n).reverse.map (fun k => (some (s.take (k+1)), s.drop (k+1)))
  | .capL c, s =>
    let n := (s.takeWhile (clsMem c)).length
    (List.range n).map (fun k => (some (s.take (k+1)), s.drop (k+1)))

/-- Fuel-driven scan implementing `re.findall` (group-1 captures of
successive non-overlapping leftmost matches). -/
def findallAux (re : RE) : ℕ → List Char → List (List Char)
  | 0, _ => []
  | _ + 1, [] => []
  | fuel + 1, c :: rest =>
    match (mMatch re (c :: rest)).head? with
    | some (cap, remaining) =>
      if remaining.length < rest.length + 1 then
        cap.getD [] :: findallAux re fuel remaining
      else
        cap.getD [] :: findallAux re fuel rest
    | none => findallAux re fuel rest

/-- Model of `re.findall(pattern, s)` returning the group-1 captures.  Every
title pattern consumes at least one character per match, so fuel
`s.length + 1` is sufficient. -/
def findall (re : RE) (s : List Char) : List (List Char) :=
  findallAux re (s.length + 1) s

/-- Literal regex from a string. -/
def rlit (s : String) : RE := .lit s.toList

/-- Pattern `(?:position|role|job|title):\s*([^\n\r,]+)`. -/
def titlePattern1 : RE :=
  .seq (.alt (rlit "position") (.alt (rlit "role") (.alt (rlit "job")
    (rlit "title"))))
    (.seq (rlit ":") (.seq (.starG .wsp) (.capG .notNlComma)))

/-- Pattern
`(?:seeking|hiring|looking for)\s+(?:a\s+)?([^\n\r,]+?)(?:\s+to|\s+with|\s+who)`. -/
def titlePattern2 : RE :=
  .seq (.alt (rlit "seeking") (.alt (rlit "hiring") (rlit "looking for")))
    (.seq (.plusG .wsp)
      (.seq (.opt (.seq (rlit "a") (.plusG .wsp)))
        (.seq (.capL .notNlComma)
          (.alt (.seq (.plusG .wsp) (rlit "to"))
            (.alt (.seq (.plusG .wsp) (rlit "with"))
              (.seq (.plusG .wsp) (rlit "who")))))))

/-- Pattern `([^\n\r,]+?)\s*(?:position|role|opportunity)`. -/
def titlePattern3 : RE :=
  .seq (.capL .notNlComma)
    (.seq (.starG .wsp)
      (.alt (rlit "position") (.alt (rlit "role") (rlit "opportunity"))))

/-- Pattern `we are hiring\s+(?:a\s+)?([^\n\r,]+)`. -/
def titlePattern4 : RE :=
  .seq (rlit "we are hiring")
    (.seq (.plusG .wsp)
      (.seq (.opt (.seq (rlit "a") (.plusG .wsp))) (.capG .notNlComma)))

/-- The four title patterns, in source order. -/
def titlePatterns : List RE :=
  [titlePattern1, titlePattern2, titlePattern3, titlePattern4]

/-- The fixed fallback list `common_titles`. -/
def commonTitles : List String :=
  ["data scientist", "machine learning engineer", "software engineer",
   "data engineer", "analyst", "developer", "manager", "director",
   "senior", "junior", "lead", "principal", "staff"]

/-- The set `jd_title_tokens` built by `_calculate_title_similarity`:
tokens of the stripped captures of all pattern matches over the lowered job
description; if that is empty, tokens of every fallback common title
occurring in the lowered job description. -/
def jdTitleTokens (jd : String) : List String :=
  let jdLower := (lowerStr jd).toList
  let fromPatterns :=
    ((titlePatterns.map (fun p => findall p jdLower)).flatten.map
      (fun cap => _tokenize (String.mk (stripChars cap)))).flatten.dedup
  if fromPatterns.isEmpty then
    ((commonTitles.filter (fun t => containsSub t.toList jdLower)).map
      (fun t => _tokenize t)).flatten.dedup
  else
    fromPatterns

/-- The set `resume_title_tokens`: tokens of every non-empty lowered
`position` of the resume's experience entries. -/
def resumeTitleTokens (r : Resume) : List String :=
  (((r.experience.filter (fun e => e.position != "")).map
    (fun e => _tokenize (lowerStr e.position))).flatten).dedup

/-- Model of `_calculate_title_similarity`: neutral `0.5` when
`jd_title_tokens` is empty, else `|jd_title_tokens ∩ resume_title_tokens| /
|jd_title_tokens|` (the source's trailing `else 0` is unreachable under the
emptiness guard). -/
def _calculate_title_similarity (r : Resume) (jd : String) : ℚ :=
  let toks := jdTitleTokens jd
  if toks.isEmpty then 1/2
  else ((interList toks (resumeTitleTokens r)).length : ℚ) / toks.length

/-- The static `technical_indicators` vocabulary. -/
def technical_indicators : List String :=
  ["python", "java", "javascript", "sql", "react", "nodejs", "aws", "docker",
   "kubernetes", "tensorflow", "pytorch", "pandas", "numpy", "git", "linux",
   "mongodb", "postgresql", "redis", "spark", "hadoop", "tableau", "powerbi",
   "machine learning", "deep learning", "api", "rest", "graphql",
   "microservices", "ci/cd", "devops", "cloud", "database", "algorithm",
   "framework", "library"]

/-- The static `business_indicators` vocabulary. -/
def business_indicators : List String :=
  ["agile", "scrum", "project", "management", "leadership", "communication",
   "collaboration", "stakeholder", "strategy", "analysis", "business",
   "requirements", "planning", "coordination", "presentation",
   "documentation"]

/-- Does any vocabulary entry occur as a substring of the (lowered) token?
Models `any(v in token_lower for v in vocab)`. -/
def anySubOf (vocab : List String) (tokenLower : String) : Bool :=
  vocab.any (fun v => containsSub v.toList tokenLower.toList)

/-- Model of `re.match(r'^[A-Z]+$', token)` as a Boolean: the token is one
or more uppercase ASCII letters, i.e. codepoints 65-90 (Python's `$` also
tolerates one trailing newline). -/
def reUpperMatch (t : String) : Bool :=
  let cs := t.toList
  let up := fun (c : Char) => decide (65 ≤ c.toNat ∧ c.toNat ≤ 90)
  (!cs.isEmpty && cs.all up) ||
    (cs.getLast? == some '\n' && !cs.dropLast.isEmpty && cs.dropLast.all up)

/-- Helper for `reWordDotMatch`: after at least one word character, the rest
must continue with word characters until a literal `.` followed by a word
character. -/
def wdGo : List Char → Bool
  | [] => false
  | x :: rest =>
    if isWordChar x then wdGo rest
    else
      x == '.' && (match rest with | d :: _ => isWordChar d | [] => false)

/-- Model of `re.match(r'^\w+\.\w+', token)` as a Boolean: the token starts
with one or more word characters, then `.`, then a word character. -/
def reWordDotMatch (t : String) : Bool :=
  match t.toList with
  | [] => false
  | c :: rest => isWordChar c && wdGo rest

/-- The technical/business decision applied to one token by the `if`/`elif`
chain in `_categorize_keywords`: `true` means technical. -/
def classifyTechB (token : String) : Bool :=
  let token_lower := lowerStr token
  if anySubOf technical_indicators token_lower then true
  else if anySubOf business_indicators token_lower then false
  else if reUpperMatch token || reWordDotMatch token then true
  else false

/-- Model of `_categorize_keywords`: split the token sequence into the
technical and business lists, preserving input order (the source appends to
two accumulator lists inside a loop). -/
def _categorize_keywords : List String → List String × List String
  | [] => ([], [])
  | token :: rest =>
    let pr := _categorize_keywords rest
    if classifyTechB token then (token :: pr.1, pr.2) else (pr.1, token :: pr.2)

/-- The set `resume_tokens` of `score_ats`. -/
def resumeTokens (r : Resume) : List String :=
  (_tokenize (_flatten_resume r)).dedup

/-- The set `jd_tokens` of `score_ats`. -/
def jdTokens (jd : String) : List String :=
  (_tokenize jd).dedup

/-- The set `skills_flat`: tokens of every skill string of every category. -/
def skillsFlat (r : Resume) : List String :=
  ((r.skills.map Prod.snd).flatten.map (fun s => _tokenize s)).flatten.dedup

/-- `skills_overlap = len(skills_flat & jd_tokens)`. -/
def skillsOverlap (r : Resume) (jd : String) : ℕ :=
  (interList (skillsFlat r) (jdTokens jd)).length

/-- `skills_total = max(1, len(jd_tokens))`. -/
def skillsTotal (jd : String) : ℕ :=
  max 1 (jdTokens jd).length

/-- The skills sub-score:
`min(1.0, skills_overlap / max(1, skills_total * 0.3))`. -/
def skillsScore (r : Resume) (jd : String) : ℚ :=
  min 1 ((skillsOverlap r jd : ℚ) / max 1 ((skillsTotal jd : ℚ) * (3/10)))

/-- The keyword sub-score as a function of the two token sets:
`len(resume_tokens & jd_tokens) / max(1, len(jd_tokens))`. -/
def kwScoreFromTokens (rt jt : List String) : ℚ :=
  ((interList rt jt).length : ℚ) / (max 1 jt.length : ℕ)

/-- The keyword sub-score of `score_ats`. -/
def keywordScore (r : Resume) (jd : String) : ℚ :=
  kwScoreFromTokens (resumeTokens r) (jdTokens jd)

/-- The experience sub-score: `min(1.0, total_years / 5.0)`. -/
def expScore (current_year : ℕ) (r : Resume) : ℚ :=
  min 1 (totalYears current_year r / 5)

/-- The `keyword_matches` component of a score result. -/
structure KeywordMatches where
  technical : List String
  business : List String
deriving DecidableEq

/-- The `score_breakdown` component of a score result. -/
structure ScoreBreakdown where
  skills : ℤ
  keywords : ℤ
  title : ℤ
  experience : ℤ
deriving DecidableEq

/-- The result record returned by `score_ats`. -/
structure ScoreResult where
  ats_score : ℤ
  keyword_matches : KeywordMatches
  missing_keywords : List String
  recommendations : List String
  score_breakdown : ScoreBreakdown
deriving DecidableEq

/-- The weighted composite `total` of `score_ats`. -/
def compositeTotal (current_year : ℕ) (r : Resume) (jd : String) : ℚ :=
  skillsScore r jd * (2/5) + keywordScore r jd * (3/10)
    + _calculate_title_similarity r jd * (1/5)
    + expScore current_year r * (1/10)

/-- The recommendation list built by `score_ats` on the main path. -/
def recommendationsOf (current_year : ℕ) (r : Resume) (jd : String) :
    List String :=
  (if skillsScore r jd < 3/5 then
    ["Add more technical skills relevant to the job description"]
   else []) ++
  (if keywordScore r jd < 2/5 then
    ["Include more keywords from the job description in your experience bullets"]
   else []) ++
  (if _calculate_title_similarity r jd < 2/5 then
    ["Consider adjusting your job titles to better match the target role"]
   else []) ++
  (if expScore current_year r < 2/5 then
    ["Highlight your years of experience and specific project durations"]
   else []) ++
  (if totalYears current_year r < 2 then
    ["Emphasize relevant projects, internships, or coursework to strengthen experience"]
   else [])

/-- The result record built by `score_ats` when both guard clauses pass. -/
def mainScoreResult (current_year : ℕ) (r : Resume) (jd : String) :
    ScoreResult :=
  let cat := _categorize_keywords (interList (resumeTokens r) (jdTokens jd))
  { ats_score :=
      max 0 (min 100 (pyRound (compositeTotal current_year r jd * 100)))
    keyword_matches :=
      { technical := cat.1.take 20, business := cat.2.take 20 }
    missing_keywords := (diffList (jdTokens jd) (resumeTokens r)).take 15
    recommendations := recommendationsOf current_year r jd
    score_breakdown :=
      { skills := pyRound (skillsScore r jd * 100)
        keywords := pyRound (keywordScore r jd * 100)
        title := pyRound (_calculate_title_similarity r jd * 100)
        experience := pyRound (expScore current_year r * 100) } }

/-- Model of `score_ats`.  `current_year` is the wall-clock year read by
`_extract_years_experience`; `none` models a missing / non-dict / falsy
resume argument. -/
def score_ats (current_year : ℕ) (resume_json : Option Resume)
    (job_description : String) : ScoreResult :=
  match resume_json with
  | none =>
    { ats_score := 0
      keyword_matches := { technical := [], business := [] }
      missing_keywords := []
      recommendations := ["Resume JSON is empty or malformed"]
      score_breakdown :=
        { skills := 0, keywords := 0, title := 0, experience := 0 } }
  | some r =>
    let resume_text := _flatten_resume r
    if stripStr resume_text = "" ∨ (stripStr resume_text).length < 20 then
      { ats_score := 0
        keyword_matches := { technical := [], business := [] }
        missing_keywords := []
        recommendations := ["Empty or insufficient resume content"]
        score_breakdown :=
          { skills := 0, keywords := 0, title := 0, experience := 0 } }
    else
      mainScoreResult current_year r job_description


/-- Does any of the four title regex heuristics match anywhere in the
lowered job description?  (States the hypothesis of the title-neutrality
claim.) -/
def titlePatternMatches (jd : String) : Bool :=
  titlePatterns.any (fun p => !(findall p (lowerStr jd).toList).isEmpty)

/-- Does any fallback common-title phrase occur in the lowered job
description? -/
def commonTitleOccurs (jd : String) : Bool :=
  commonTitles.any (fun t => containsSub t.toList (lowerStr jd).toList)

/-- The title score formula exactly as the specification words it:
`|jd_title_tokens ∩ resume_title_tokens| / |jd_title_tokens|` (in `ℚ`,
division by zero denotes `0`).  Stated separately from
`_calculate_title_similarity` so the two can be compared. -/
def titleRatioSpec (r : Resume) (jd : String) : ℚ :=
  ((interList (jdTitleTokens jd) (resumeTitleTokens r)).length : ℚ) /
    ((jdTitleTokens jd).length : ℚ)

/-- Does the date string contain a `\b(19|20)\d{2}\b` match? -/
def hasYearB (s : String) : Bool :=
  (findYear none s.toList).isSome

/-- The token contains no uppercase ASCII letter (codepoints 65-90). -/
def noUpperB (t : String) : Bool :=
  t.toList.all (fun c => !(decide (65 ≤ c.toNat ∧ c.toNat ≤ 90)))

/-- A concrete resume with an open-ended (`Present`) experience entry, long
enough to pass the content guard; used to exhibit the wall-clock dependence
of `score_ats`. -/
def presentResume : Resume :=
  { summary := "software engineer with python experience"
    experience := [{ position := "engineer", start_date := "2020",
                     end_date := "Present" }] }

/-! ### Helper lemmas -/

lemma length_dropWhileChar_le (p : Char → Bool) (cs : List Char) :
    (cs.dropWhile p).length ≤ cs.length :=
  List.IsSuffix.length_le (List.dropWhile_suffix p)

/-- Stripping never lengthens a character list. -/
lemma stripChars_length_le (cs : List Char) :
    (stripChars cs).length ≤ cs.length := by
  unfold stripChars
  calc ((cs.dropWhile isSpaceChar).reverse.dropWhile isSpaceChar).reverse.length
      = ((cs.dropWhile isSpaceChar).reverse.dropWhile isSpaceChar).length :=
        List.length_reverse _
    _ ≤ (cs.dropWhile isSpaceChar).reverse.length :=
        length_dropWhileChar_le _ _
    _ = (cs.dropWhile isSpaceChar).length := List.length_reverse _
    _ ≤ cs.length := length_dropWhileChar_le _ _

/-- Stripping never lengthens a string. -/
lemma stripStr_length_le (s : String) : (stripStr s).length ≤ s.length :=
  stripChars_length_le s.toList

/-- Membership in the intersection model. -/
lemma mem_interList {x : String} {a b : List String} :
    x ∈ interList a b ↔ x ∈ a ∧ x ∈ b := by
  simp [interList, List.mem_filter]

/-- Membership in the difference model. -/
lemma mem_diffList {x : String} {a b : List String} :
    x ∈ diffList a b ↔ x ∈ a ∧ x ∉ b := by
  simp [diffList, List.mem_filter]

/-- A duplicate-free list contained in `m` is no longer than `m.dedup`. -/
lemma length_le_dedup_of_nodup_subset {l m : List String}
    (hn : l.Nodup) (hs : ∀ x ∈ l, x ∈ m) : l.length ≤ m.dedup.length := by
  calc l.length = l.toFinset.card := (List.toFinset_card_of_nodup hn).symm
    _ ≤ m.toFinset.card :=
        Finset.card_le_card (fun x hx =>
          List.mem_toFinset.mpr (hs x (List.mem_toFinset.mp hx)))
    _ = m.dedup.length := List.card_toFinset m

/-- Intersection with a duplicate-free left operand is bounded by the size
of the right operand's underlying set. -/
lemma interList_length_le_right {a b : List String} (hn : a.Nodup) :
    (interList a b).length ≤ b.dedup.length := by
  apply length_le_dedup_of_nodup_subset (hn.filter _)
  intro x hx
  exact (mem_interList.mp hx).2

/-- `pyRound` stays within `[0, 100]` on inputs in `[0, 100]`. -/
lemma pyRound_bounds {q : ℚ} (h0 : 0 ≤ q) (h100 : q ≤ 100) :
    0 ≤ pyRound q ∧ pyRound q ≤ 100 := by
  have hfl : 0 ≤ ⌊q⌋ := Int.floor_nonneg.mpr h0
  have hfu : (⌊q⌋ : ℚ) ≤ 100 := le_trans (Int.floor_le q) h100
  have hfu' : ⌊q⌋ ≤ 100 := by exact_mod_cast hfu
  simp only [pyRound]
  split_ifs with h1 h2 h3
  · exact ⟨hfl, hfu'⟩
  all_goals
    refine ⟨by omega, ?_⟩
  · have hq : (⌊q⌋ : ℚ) + 1/2 < q := by linarith
    have : (⌊q⌋ : ℚ) < 100 := by linarith
    have : ⌊q⌋ < 100 := by exact_mod_cast this
    omega
  · have hq : (⌊q⌋ : ℚ) + 1/2 ≤ q := by linarith
    have : (⌊q⌋ : ℚ) < 100 := by linarith
    have : ⌊q⌋ < 100 := by exact_mod_cast this
    omega
  · have hq : (⌊q⌋ : ℚ) + 1/2 ≤ q := by linarith
    have : (⌊q⌋ : ℚ) < 100 := by linarith
    have : ⌊q⌋ < 100 := by exact_mod_cast this
    omega

/-- `pyRound` is the identity on integers. -/
lemma pyRound_intCast (n : ℤ) : pyRound (n : ℚ) = n := by
  simp only [pyRound, Int.floor_intCast]
  norm_num

/-- The skills sub-score lies in `[0, 1]`. -/
lemma skillsScore_bounds (r : Resume) (jd : String) :
    0 ≤ skillsScore r jd ∧ skillsScore r jd ≤ 1 := by
  refine ⟨le_min zero_le_one (div_nonneg (by positivity) ?_), min_le_left _ _⟩
  exact le_trans zero_le_one (le_max_left _ _)

/-- The keyword sub-score lies in `[0, 1]` for duplicate-free token lists. -/
lemma kwScoreFromTokens_bounds {rt jt : List String} (hrt : rt.Nodup)
    (hjt : jt.Nodup) :
    0 ≤ kwScoreFromTokens rt jt ∧ kwScoreFromTokens rt jt ≤ 1 := by
  have h1 : (1 : ℕ) ≤ max 1 jt.length := le_max_left _ _
  have hd : (0 : ℚ) < ((max 1 jt.length : ℕ) : ℚ) := by exact_mod_cast h1
  constructor
  · exact div_nonneg (by positivity) (le_of_lt hd)
  · rw [kwScoreFromTokens, div_le_one hd]
    have hle : (interList rt jt).length ≤ jt.length := by
      have := interList_length_le_right (b := jt) hrt
      rwa [hjt.dedup] at this
    exact_mod_cast le_trans hle (le_max_right 1 _)

/-- The sets built by `score_ats` are duplicate-free. -/
lemma resumeTokens_nodup (r : Resume) : (resumeTokens r).Nodup :=
  List.nodup_dedup _

/-- The job-description token set is duplicate-free. -/
lemma jdTokens_nodup (jd : String) : (jdTokens jd).Nodup :=
  List.nodup_dedup _

/-- The keyword sub-score of `score_ats` lies in `[0, 1]`. -/
lemma keywordScore_bounds (r : Resume) (jd : String) :
    0 ≤ keywordScore r jd ∧ keywordScore r jd ≤ 1 :=
  kwScoreFromTokens_bounds (resumeTokens_nodup r) (jdTokens_nodup jd)

/-- The title sub-score lies in `[0, 1]`. -/
lemma title_similarity_bounds (r : Resume) (jd : String) :
    0 ≤ _calculate_title_similarity r jd ∧
      _calculate_title_similarity r jd ≤ 1 := by
  simp only [_calculate_title_similarity]
  split_ifs with h
  · norm_num
  · have hne : jdTitleTokens jd ≠ [] := by
      intro he
      rw [he] at h
      exact h rfl
    have hpos : 0 < (jdTitleTokens jd).length := List.length_pos.mpr hne
    have hposq : (0 : ℚ) < ((jdTitleTokens jd).length : ℚ) := by
      exact_mod_cast hpos
    constructor
    · positivity
    · rw [div_le_one hposq]
      exact_mod_cast List.length_filter_le _ _

/-- Per-entry experience contributions are non-negative. -/
lemma extract_years_nonneg (cy : ℕ) (s e : String) :
    0 ≤ _extract_years_experience cy s e := by
  unfold _extract_years_experience
  split_ifs
  · exact le_max_left _ _
  · exact le_max_left _ _
  · norm_num

/-- `total_years` is non-negative. -/
lemma totalYears_nonneg (cy : ℕ) (r : Resume) : 0 ≤ totalYears cy r := by
  apply List.sum_nonneg
  intro x hx
  obtain ⟨e, _, rfl⟩ := List.mem_map.mp hx
  exact extract_years_nonneg cy e.start_date e.end_date

/-- The experience sub-score lies in `[0, 1]`. -/
lemma expScore_bounds (cy : ℕ) (r : Resume) :
    0 ≤ expScore cy r ∧ expScore cy r ≤ 1 := by
  refine ⟨le_min zero_le_one (div_nonneg (totalYears_nonneg cy r) ?_),
    min_le_left _ _⟩
  norm_num

/-- When the flattened resume survives the content guard, `score_ats`
returns the main-path result. -/
lemma score_ats_some (cy : ℕ) (r : Resume) (jd : String)
    (h : 20 ≤ (stripStr (_flatten_resume r)).length) :
    score_ats cy (some r) jd = mainScoreResult cy r jd := by
  have hg : ¬(stripStr (_flatten_resume r) = "" ∨
      (stripStr (_flatten_resume r)).length < 20) := by
    rintro (h1 | h2)
    · rw [h1] at h
      exact absurd h (by decide)
    · omega
  simp [score_ats, hg]

/-- Dropping the inner `max 1` of the skills denominator never changes the
score, because the overlap is a natural number: for `t ≤ 3` the branch
`max = 1` and the branch `t * 0.3` both send overlap `0` to `0` and any
positive overlap to a capped `1`. -/
lemma skills_min_div_max_eq (o t : ℕ) (ht : 1 ≤ t) :
    min 1 ((o : ℚ) / max 1 ((t : ℚ) * (3/10)))
      = min 1 ((o : ℚ) / ((t : ℚ) * (3/10))) := by
  rcases le_or_lt 4 t with h4 | h4
  · have h4q : (4 : ℚ) ≤ (t : ℚ) := by exact_mod_cast h4
    have : (1 : ℚ) ≤ (t : ℚ) * (3/10) := by linarith
    rw [max_eq_right this]
  · have ht3 : (t : ℚ) ≤ 3 := by
      have : t ≤ 3 := by omega
      exact_mod_cast this
    have htq : (1 : ℚ) ≤ (t : ℚ) := by exact_mod_cast ht
    have hden : (t : ℚ) * (3/10) ≤ 1 := by linarith
    have hdpos : (0 : ℚ) < (t : ℚ) * (3/10) := by linarith
    rw [max_eq_left hden]
    rcases Nat.eq_zero_or_pos o with ho | ho
    · subst ho
      norm_num
    · have ho1 : (1 : ℚ) ≤ (o : ℚ) := by exact_mod_cast ho
      have h1 : (1 : ℚ) ≤ (o : ℚ) / ((t : ℚ) * (3/10)) := by
        rw [le_div_iff₀ hdpos]
        nlinarith
      have h2 : (1 : ℚ) ≤ (o : ℚ) / 1 := by simpa using ho1
      rw [min_eq_left h1, min_eq_left h2]

/-- C1: for every resume passing both guard clauses and every job
description, the skills sub-score equals
`min(1.0, skills_overlap / (skills_total * 0.3))` (the inner `max 1` of the
implementation is redundant for integer overlaps, including every
`|jd_tokens| ≤ 3`); matching at least 30% of the JD's distinct tokens
yields exactly `1.0`; and the reported breakdown field is this sub-score
rounded to percent. -/
theorem c1_skills_score_formula (current_year : ℕ) (r : Resume) (jd : String)
    (h : 20 ≤ (stripStr (_flatten_resume r)).length) :
    skillsScore r jd
        = min 1 ((skillsOverlap r jd : ℚ) / ((skillsTotal jd : ℚ) * (3/10)))
      ∧ (3 * (skillsTotal jd : ℚ) ≤ 10 * (skillsOverlap r jd : ℚ) →
          skillsScore r jd = 1)
      ∧ (score_ats current_year (some r) jd).score_breakdown.skills
          = pyRound (skillsScore r jd * 100) := by
  have ht : 1 ≤ skillsTotal jd := le_max_left _ _
  refine ⟨skills_min_div_max_eq _ _ ht, ?_, ?_⟩
  · intro h30
    have htq : (1 : ℚ) ≤ (skillsTotal jd : ℚ) := by exact_mod_cast ht
    have ho1 : (1 : ℚ) ≤ (skillsOverlap r jd : ℚ) := by
      have h0 : (0 : ℚ) ≤ (skillsOverlap r jd : ℚ) := by positivity
      have : skillsOverlap r jd ≠ 0 := by
        intro h0'
        rw [h0'] at h30
        push_cast at h30
        linarith
      exact_mod_cast Nat.one_le_iff_ne_zero.mpr this
    have hdle : max 1 ((skillsTotal jd : ℚ) * (3/10))
        ≤ (skillsOverlap r jd : ℚ) := by
      apply max_le ho1
      linarith
    have hdpos : (0 : ℚ) < max 1 ((skillsTotal jd : ℚ) * (3/10)) :=
      lt_of_lt_of_le zero_lt_one (le_max_left _ _)
    rw [skillsScore, min_eq_left]
    rw [le_div_iff₀ hdpos]
    linarith
  · rw [score_ats_some current_year r jd h]
    rfl

/-- Witness for C1 at a concrete resume and job description: one skill
token out of two JD tokens exceeds the 30% threshold, so the skills
sub-score is exactly `1`. -/
theorem c1_skills_score_formula_witness :
    skillsScore
      { summary := "experienced software developer in python"
        skills := [("Technical", ["Python"])] } "python developer" = 1 := by
  have h := (c1_skills_score_formula 2026
    { summary := "experienced software developer in python"
      skills := [("Technical", ["Python"])] } "python developer"
    (by decide)).2.1
  apply h
  rw [show skillsTotal "python developer" = 2 from by decide,
    show skillsOverlap
      { summary := "experienced software developer in python"
        skills := [("Technical", ["Python"])] } "python developer" = 1
      from by decide]
  norm_num

/-- C2: for every evaluation year and job description, `score_ats` applied
to a missing or non-record resume returns exactly the zero-score
"Resume JSON is empty or malformed" record; the model is a total function,
so no exception is possible. -/
theorem c2_empty_input_floor (current_year : ℕ) (jd : String) :
    score_ats current_year none jd =
      { ats_score := 0
        keyword_matches := { technical := [], business := [] }
        missing_keywords := []
        recommendations := ["Resume JSON is empty or malformed"]
        score_breakdown :=
          { skills := 0, keywords := 0, title := 0, experience := 0 } } := rfl

/-- C3: every structurally valid resume whose flattened text is empty or
shorter than 20 characters yields the zero-score
"Empty or insufficient resume content" result, for every job description
and evaluation year. -/
theorem c3_minimal_content_floor (current_year : ℕ) (r : Resume) (jd : String)
    (h : _flatten_resume r = "" ∨ (_flatten_resume r).length < 20) :
    score_ats current_year (some r) jd =
      { ats_score := 0
        keyword_matches := { technical := [], business := [] }
        missing_keywords := []
        recommendations := ["Empty or insufficient resume content"]
        score_breakdown :=
          { skills := 0, keywords := 0, title := 0, experience := 0 } } := by
  have hlen : (_flatten_resume r).length < 20 := by
    rcases h with h | h
    · rw [h]
      decide
    · exact h
  have hg : stripStr (_flatten_resume r) = "" ∨
      (stripStr (_flatten_resume r)).length < 20 :=
    Or.inr (lt_of_le_of_lt (stripStr_length_le _) hlen)
  simp [score_ats, hg]

/-- Witness for C3: the default-empty resume flattens to the empty string
and hits the minimal-content floor. -/
theorem c3_minimal_content_floor_witness :
    score_ats 2026 (some {}) "python" =
      { ats_score := 0
        keyword_matches := { technical := [], business := [] }
        missing_keywords := []
        recommendations := ["Empty or insufficient resume content"]
        score_breakdown :=
          { skills := 0, keywords := 0, title := 0, experience := 0 } } :=
  c3_minimal_content_floor 2026 {} "python" (Or.inl (by decide))

/-- C4: for every input (including the guard paths), the composite
`ats_score` and all four `score_breakdown` values are integers in
`[0, 100]`. -/
theorem c4_bounds (current_year : ℕ) (resume_json : Option Resume)
    (jd : String) :
    (0 ≤ (score_ats current_year resume_json jd).ats_score ∧
      (score_ats current_year resume_json jd).ats_score ≤ 100) ∧
    (0 ≤ (score_ats current_year resume_json jd).score_breakdown.skills ∧
      (score_ats current_year resume_json jd).score_breakdown.skills ≤ 100) ∧
    (0 ≤ (score_ats current_year resume_json jd).score_breakdown.keywords ∧
      (score_ats current_year resume_json jd).score_breakdown.keywords ≤ 100) ∧
    (0 ≤ (score_ats current_year resume_json jd).score_breakdown.title ∧
      (score_ats current_year resume_json jd).score_breakdown.title ≤ 100) ∧
    (0 ≤ (score_ats current_year resume_json jd).score_breakdown.experience ∧
      (score_ats current_year resume_json jd).score_breakdown.experience
        ≤ 100) := by
  cases resume_json with
  | none =>
    simp [score_ats]
  | some r =>
    by_cases hg : stripStr (_flatten_resume r) = "" ∨
        (stripStr (_flatten_resume r)).length < 20
    · simp [score_ats, hg]
    · have h20 : 20 ≤ (stripStr (_flatten_resume r)).length := by
        rcases not_or.mp hg with ⟨_, h2⟩
        omega
      rw [score_ats_some current_year r jd h20]
      have hs := skillsScore_bounds r jd
      have hk := keywordScore_bounds r jd
      have htl := title_similarity_bounds r jd
      have he := expScore_bounds current_year r
      have hsk := pyRound_bounds (q := skillsScore r jd * 100)
        (mul_nonneg hs.1 (by norm_num)) (by linarith [hs.2])
      have hkw := pyRound_bounds (q := keywordScore r jd * 100)
        (mul_nonneg hk.1 (by norm_num)) (by linarith [hk.2])
      have htt := pyRound_bounds (q := _calculate_title_similarity r jd * 100)
        (mul_nonneg htl.1 (by norm_num)) (by linarith [htl.2])
      have hex := pyRound_bounds (q := expScore current_year r * 100)
        (mul_nonneg he.1 (by norm_num)) (by linarith [he.2])
      simp only [mainScoreResult]
      exact ⟨⟨le_max_left _ _, max_le (by norm_num) (min_le_left _ _)⟩,
        hsk, hkw, htt, hex⟩

/-- C8: adding to the resume's token set a token that occurs among the JD
tokens (and was not previously present) never decreases the keyword
sub-score `|resume_tokens ∩ jd_tokens| / max(1, |jd_tokens|)`. -/
theorem c8_keyword_monotone (rt jt : List String) (t : String)
    (hjd : t ∈ jt) (_hnew : t ∉ rt) :
    kwScoreFromTokens rt jt ≤ kwScoreFromTokens (rt ++ [t]) jt := by
  have hnum : (interList rt jt).length ≤ (interList (rt ++ [t]) jt).length := by
    unfold interList
    rw [List.filter_append]
    have hone : (List.filter (fun x => decide (x ∈ jt)) [t]) = [t] := by
      simp [hjd]
    rw [hone, List.length_append]
    omega
  unfold kwScoreFromTokens
  gcongr

/-- Witness for C8: adding the missing JD token `"sql"` to a resume token
set raises (here: does not lower) the keyword sub-score. -/
theorem c8_keyword_monotone_witness :
    kwScoreFromTokens ["python"] ["python", "sql"]
      ≤ kwScoreFromTokens (["python"] ++ ["sql"]) ["python", "sql"] :=
  c8_keyword_monotone ["python"] ["python", "sql"] "sql" (by decide) (by decide)

/-- The accumulation loop of `_categorize_keywords` is the pair of filters
by the per-token decision. -/
lemma categorize_eq_filter (l : List String) :
    _categorize_keywords l
      = (l.filter classifyTechB, l.filter (fun t => !classifyTechB t)) := by
  induction l with
  | nil => rfl
  | cons x xs ih =>
    simp only [_categorize_keywords, ih]
    by_cases h : classifyTechB x
    · simp [List.filter_cons, h]
    · simp [List.filter_cons, h]

/-- Filtering by a predicate and by its negation partitions the length. -/
lemma length_filter_add_length_filter_not (l : List String)
    (p : String → Bool) :
    (l.filter p).length + (l.filter (fun x => !p x)).length = l.length := by
  induction l with
  | nil => rfl
  | cons x xs ih =>
    by_cases h : p x
    · simp only [List.filter_cons, h]
      simp only [Bool.not_true, if_true, if_false, cond_true, cond_false]
      simp [ih]
      omega
    · simp only [List.filter_cons, h]
      simp only [Bool.not_false, if_true, if_false]
      simp [ih, h]
      omega

/-- C9: `_categorize_keywords` partitions its input: the two output lists
together have the input's length, every input token lands in at least one
output list (and conversely outputs come from the input), and no token is
in both lists. -/
theorem c9_categorize_partition (tokens : List String) :
    ((_categorize_keywords tokens).1.length
        + (_categorize_keywords tokens).2.length = tokens.length)
  ∧ (∀ s, (s ∈ tokens ↔ s ∈ (_categorize_keywords tokens).1
        ∨ s ∈ (_categorize_keywords tokens).2))
  ∧ (∀ s, ¬(s ∈ (_categorize_keywords tokens).1
        ∧ s ∈ (_categorize_keywords tokens).2)) := by
  rw [categorize_eq_filter]
  refine ⟨length_filter_add_length_filter_not tokens classifyTechB, ?_, ?_⟩
  · intro s
    simp only [List.mem_filter]
    constructor
    · intro hs
      by_cases h : classifyTechB s
      · exact Or.inl ⟨hs, h⟩
      · exact Or.inr ⟨hs, by simp [h]⟩
    · rintro (⟨hs, _⟩ | ⟨hs, _⟩) <;> exact hs
  · rintro s ⟨h1, h2⟩
    rw [List.mem_filter] at h1 h2
    simp [h1.2] at h2

/-- Witness for C9 at a concrete token list. -/
theorem c9_categorize_partition_witness :
    "python" ∈ (_categorize_keywords ["python"]).1
      ∨ "python" ∈ (_categorize_keywords ["python"]).2 :=
  ((c9_categorize_partition ["python"]).2.1 "python").mp (by decide)

/-- When the year regex finds no match, `extract_year` returns the current
year (the present/current/now branch and the fallback coincide). -/
lemma extract_year_of_searchFail (cy : ℕ) (s : String)
    (h : findYear none s.toList = none) : extract_year cy s = cy := by
  unfold extract_year
  rw [h]
  simp

/-- When the year regex finds a match, `extract_year` returns it. -/
lemma extract_year_of_found (cy y : ℕ) (s : String)
    (h : findYear none s.toList = some y) : extract_year cy s = y := by
  unfold extract_year
  rw [h]

/-- C7: an experience entry with empty `start_date` contributes exactly
`0.5`; otherwise the entry contributes
`max(0, end_year - start_year)` with the years given by `extract_year`
(first `19xx`/`20xx` match, else — including present/current/now and empty
`end_date` — the current year); in particular
`start_date = "2020"`, `end_date = "Present"` contributes
`current_year - 2020`; and `total_years` is the uncapped sum over the
entries. -/
theorem c7_experience_years (current_year : ℕ)
    (h2020 : 2020 ≤ current_year) (s e : String) (r : Resume) :
    _extract_years_experience current_year "" e = 1/2
  ∧ (s ≠ "" → _extract_years_experience current_year s e
      = max 0 ((((if e ≠ "" then extract_year current_year e
            else current_year) : ℕ) : ℚ)
          - ((extract_year current_year s : ℕ) : ℚ)))
  ∧ (findYear none s.toList = none →
      extract_year current_year s = current_year)
  ∧ extract_year current_year "Present" = current_year
  ∧ _extract_years_experience current_year "2020" "Present"
      = (current_year : ℚ) - 2020
  ∧ totalYears current_year r
      = (r.experience.map (fun x =>
          _extract_years_experience current_year x.start_date
            x.end_date)).sum := by
  have hpresent : findYear none "Present".toList = none := by decide
  have h2020y : findYear none "2020".toList = some 2020 := by decide
  refine ⟨by simp [_extract_years_experience], ?_, ?_, ?_, ?_, rfl⟩
  · intro hs
    simp [_extract_years_experience, hs]
  · intro hn
    exact extract_year_of_searchFail current_year s hn
  · exact extract_year_of_searchFail current_year "Present" hpresent
  · have hstart : ("2020" : String) ≠ "" := by decide
    simp only [_extract_years_experience, hstart, if_pos,
      extract_year_of_found current_year 2020 "2020" h2020y,
      extract_year_of_searchFail current_year "Present" hpresent]
    have hend : ("Present" : String) ≠ "" := by decide
    rw [if_pos hend]
    have hc : (2020 : ℚ) ≤ (current_year : ℚ) := by exact_mod_cast h2020
    rw [max_eq_right (by push_cast; linarith)]
    push_cast
    ring

/-- Witness for C7: evaluated in 2024, a 2020-to-Present entry contributes
four years. -/
theorem c7_experience_years_witness :
    _extract_years_experience 2024 "2020" "Present" = 4 := by
  have h := (c7_experience_years 2024 (by norm_num) "x" "y" {}).2.2.2.2.1
  rw [h]
  norm_num

/-- Counterexample to C5 as stated: `score_ats` reads the wall-clock year
inside `_extract_years_experience`, so two invocations on the same
`(resume, job_description)` input can return different results — here the
experience breakdown is `60` when evaluated in 2023 and `100` when evaluated
in 2030. -/
theorem c5_determinism_counterexample :
    score_ats 2023 (some presentResume) ""
      ≠ score_ats 2030 (some presentResume) "" := by
  have hty1 : totalYears 2023 presentResume = 3 := by
    simp [totalYears, presentResume, _extract_years_experience,
      extract_year_of_found 2023 2020 "2020" (by decide),
      extract_year_of_searchFail 2023 "Present" (by decide)]
    norm_num
  have hty2 : totalYears 2030 presentResume = 10 := by
    simp [totalYears, presentResume, _extract_years_experience,
      extract_year_of_found 2030 2020 "2020" (by decide),
      extract_year_of_searchFail 2030 "Present" (by decide)]
    norm_num
  have hexp1 : expScore 2023 presentResume = 3/5 := by
    unfold expScore
    rw [hty1]
    norm_num
  have hexp2 : expScore 2030 presentResume = 1 := by
    unfold expScore
    rw [hty2]
    norm_num
  have h1 : (score_ats 2023 (some presentResume) "").score_breakdown.experience
      = 60 := by
    rw [score_ats_some 2023 presentResume "" (by decide)]
    show pyRound (expScore 2023 presentResume * 100) = 60
    rw [hexp1, show ((3:ℚ)/5 * 100) = ((60 : ℤ) : ℚ) from by norm_num,
      pyRound_intCast]
  have h2 : (score_ats 2030 (some presentResume) "").score_breakdown.experience
      = 100 := by
    rw [score_ats_some 2030 presentResume "" (by decide)]
    show pyRound (expScore 2030 presentResume * 100) = 100
    rw [hexp2, show ((1:ℚ) * 100) = ((100 : ℤ) : ℚ) from by norm_num,
      pyRound_intCast]
  intro hEq
  rw [hEq, h2] at h1
  exact absurd h1 (by decide)

/-- C5 (amended): the result of `score_ats` is a pure function of
`(resume, job_description, current_year)`; in particular two invocations
evaluated with the same wall-clock year agree, and whenever every experience
entry either has an empty `start_date` or carries an explicit
`19xx`/`20xx` year in both `start_date` and `end_date`, the result does not
depend on the wall-clock year at all. -/
theorem c5_determinism_amended (y₁ y₂ : ℕ) (r : Resume) (jd : String)
    (h : ∀ e ∈ r.experience, e.start_date = ""
        ∨ (hasYearB e.start_date = true ∧ hasYearB e.end_date = true)) :
    score_ats y₁ (some r) jd = score_ats y₂ (some r) jd := by
  have hty : totalYears y₁ r = totalYears y₂ r := by
    unfold totalYears
    congr 1
    apply List.map_congr_left
    intro e he
    rcases h e he with h0 | ⟨hs, hee⟩
    · simp [_extract_years_experience, h0]
    · obtain ⟨ys, hys⟩ := Option.isSome_iff_exists.mp hs
      obtain ⟨ye, hye⟩ := Option.isSome_iff_exists.mp hee
      have hsne : e.start_date ≠ "" := by
        intro h''
        rw [h'', show findYear none ("" : String).toList = none from rfl]
          at hys
        simp at hys
      have hene : e.end_date ≠ "" := by
        intro h''
        rw [h'', show findYear none ("" : String).toList = none from rfl]
          at hye
        simp at hye
      simp [_extract_years_experience, hsne, hene,
        extract_year_of_found y₁ ys e.start_date hys,
        extract_year_of_found y₂ ys e.start_date hys,
        extract_year_of_found y₁ ye e.end_date hye,
        extract_year_of_found y₂ ye e.end_date hye]
  have hexp : expScore y₁ r = expScore y₂ r := by
    unfold expScore
    rw [hty]
  by_cases hg : stripStr (_flatten_resume r) = "" ∨
      (stripStr (_flatten_resume r)).length < 20
  · simp [score_ats, hg]
  · have h20 : 20 ≤ (stripStr (_flatten_resume r)).length := by
      rcases not_or.mp hg with ⟨_, h2⟩
      omega
    rw [score_ats_some y₁ r jd h20, score_ats_some y₂ r jd h20]
    unfold mainScoreResult compositeTotal recommendationsOf
    rw [hty, hexp]

/-- Witness for the amended C5: with explicit years on the single
experience entry, evaluations in 2023 and 2030 agree. -/
theorem c5_determinism_amended_witness :
    score_ats 2023
        (some { summary := "data analyst with sql and excel skills"
                experience := [{ start_date := "2019",
                                 end_date := "2021" }] }) "sql"
      = score_ats 2030
        (some { summary := "data analyst with sql and excel skills"
                experience := [{ start_date := "2019",
                                 end_date := "2021" }] }) "sql" :=
  c5_determinism_amended 2023 2030
    { summary := "data analyst with sql and excel skills"
      experience := [{ start_date := "2019", end_date := "2021" }] }
    "sql" (by decide)

/-- Counterexample to C6 as stated: on the job description `"title: &"` the
first title regex heuristic does match (capturing `"&"`), so the claim's
"otherwise" branch prescribes the recall ratio; but the capture tokenizes
to nothing and no fallback phrase occurs, so the estimator actually returns
the neutral `0.5`, which differs from the prescribed ratio (here `0`, its
token set being empty). -/
theorem c6_title_counterexample :
    titlePatternMatches "title: &" = true
  ∧ _calculate_title_similarity
      { experience := [{ position := "title engineer" }] } "title: &" = 1/2
  ∧ _calculate_title_similarity
      { experience := [{ position := "title engineer" }] } "title: &"
      ≠ titleRatioSpec
          { experience := [{ position := "title engineer" }] } "title: &" := by
  have hempty : jdTitleTokens "title: &" = [] := by decide
  refine ⟨by decide, ?_, ?_⟩
  · simp [_calculate_title_similarity, hempty]
  · simp [_calculate_title_similarity, titleRatioSpec, hempty]

/-- C6 (amended): the title estimator returns exactly `0.5` whenever the
collected `jd_title_tokens` set is empty — which the counterexample shows
can happen even when a title heuristic matches — independently of the
resume; otherwise it returns
`|jd_title_tokens ∩ resume_title_tokens| / |jd_title_tokens|`,
a value in `[0, 1]`. -/
theorem c6_title_neutral_amended (r : Resume) (jd : String) :
    (jdTitleTokens jd = [] → _calculate_title_similarity r jd = 1/2)
  ∧ (jdTitleTokens jd ≠ [] →
      _calculate_title_similarity r jd
        = ((interList (jdTitleTokens jd) (resumeTitleTokens r)).length : ℚ)
            / ((jdTitleTokens jd).length : ℚ)
      ∧ 0 ≤ _calculate_title_similarity r jd
      ∧ _calculate_title_similarity r jd ≤ 1) := by
  constructor
  · intro he
    simp [_calculate_title_similarity, he]
  · intro hne
    refine ⟨?_, (title_similarity_bounds r jd).1,
      (title_similarity_bounds r jd).2⟩
    have hN : (jdTitleTokens jd).isEmpty = false := by
      cases hh : jdTitleTokens jd with
      | nil => exact absurd hh hne
      | cons x xs => rfl
    simp [_calculate_title_similarity, hN]

/-- Witness for the amended C6: a job description with no title signal at
all gets the neutral score. -/
theorem c6_title_neutral_amended_witness :
    _calculate_title_similarity {} "zzz" = 1/2 :=
  (c6_title_neutral_amended {} "zzz").1 (by decide)

/-- Lowering a character never yields an uppercase ASCII letter. -/
lemma toNat_toLower_not_upper (c : Char) :
    ¬(65 ≤ (Char.toLower c).toNat ∧ (Char.toLower c).toNat ≤ 90) := by
  simp only [Char.toLower]
  split_ifs with h
  · have hv : (c.toNat + 32).isValidChar := Or.inl (by omega)
    rw [Char.ofNat, dif_pos hv]
    have ht : (Char.ofNatAux (c.toNat + 32) hv).toNat = c.toNat + 32 := rfl
    rw [ht]
    omega
  · exact h

/-- Every token produced by the tokenizer is free of uppercase ASCII
letters. -/
lemma noUpper_of_mem_tokenize {jd t : String} (h : t ∈ _tokenize jd) :
    noUpperB t = true := by
  obtain ⟨run, _, rfl⟩ := List.mem_map.mp h
  unfold noUpperB
  rw [List.all_eq_true]
  intro c hc
  have hc' : c ∈ run.map Char.toLower := hc
  obtain ⟨c0, _, rfl⟩ := List.mem_map.mp hc'
  simp only [Bool.not_eq_true']
  exact decide_eq_false (toNat_toLower_not_upper c0)

/-- A non-empty character list with no uppercase ASCII letters fails the
all-uppercase test. -/
lemma all_up_eq_false {l : List Char} (hne : l ≠ [])
    (h : ∀ c ∈ l, decide (65 ≤ c.toNat ∧ c.toNat ≤ 90) = false) :
    (l.all (fun c => decide (65 ≤ c.toNat ∧ c.toNat ≤ 90))) = false := by
  cases l with
  | nil => exact absurd rfl hne
  | cons c cs =>
    rw [List.all_cons, h c (List.mem_cons_self _ _), Bool.false_and]

/-- On an uppercase-free character list, both disjuncts of the
all-uppercase test are false. -/
lemma reUpper_list_false (l : List Char)
    (hup : ∀ c ∈ l, decide (65 ≤ c.toNat ∧ c.toNat ≤ 90) = false) :
    ((!l.isEmpty && l.all (fun c => decide (65 ≤ c.toNat ∧ c.toNat ≤ 90))) ||
      (l.getLast? == some '\n' && !l.dropLast.isEmpty &&
        l.dropLast.all (fun c => decide (65 ≤ c.toNat ∧ c.toNat ≤ 90))))
      = false := by
  cases l with
  | nil => rfl
  | cons c cs =>
    have hall : ((c :: cs).all
        (fun c => decide (65 ≤ c.toNat ∧ c.toNat ≤ 90))) = false :=
      all_up_eq_false (by simp) hup
    rw [hall, Bool.and_false, Bool.false_or]
    cases hdl : (c :: cs).dropLast with
    | nil => simp
    | cons x xs =>
      have hx : decide (65 ≤ x.toNat ∧ x.toNat ≤ 90) = false := by
        apply hup
        exact List.dropLast_subset _ (by rw [hdl]; exact List.mem_cons_self _ _)
      have hall2 : ((x :: xs).all
          (fun c => decide (65 ≤ c.toNat ∧ c.toNat ≤ 90))) = false := by
        rw [List.all_cons, hx, Bool.false_and]
      rw [hall2, Bool.and_false]

/-- The acronym heuristic `^[A-Z]+$` never fires on an uppercase-free
token. -/
lemma reUpperMatch_eq_false_of_noUpper {t : String}
    (h : noUpperB t = true) : reUpperMatch t = false := by
  have hup : ∀ c ∈ t.toList,
      decide (65 ≤ c.toNat ∧ c.toNat ≤ 90) = false := by
    intro c hc
    have h1 := List.all_eq_true.mp h c hc
    have h2 : c.toNat < 65 ∨ 90 < c.toNat := by simpa using h1
    exact decide_eq_false (by omega)
  unfold reUpperMatch
  exact reUpper_list_false t.toList hup

/-- C10: every string in `keyword_matches.technical`, `.business` and
`missing_keywords` is a lower-cased tokenizer token of the job description
(so contains no uppercase ASCII letter); consequently the all-uppercase
acronym branch of the categorizer never fires on uppercase-free tokens, and
an uppercase-free token matching neither static vocabulary is classified
technical exactly when it has the `word.word` shape, else business. -/
theorem c10_lowercase_categorization (current_year : ℕ)
    (resume_json : Option Resume) (jd : String) :
    (∀ s,
      (s ∈ (score_ats current_year resume_json jd).keyword_matches.technical
        ∨ s ∈ (score_ats current_year resume_json jd).keyword_matches.business
        ∨ s ∈ (score_ats current_year resume_json jd).missing_keywords) →
      noUpperB s = true ∧ s ∈ _tokenize jd)
  ∧ (∀ t : String, noUpperB t = true → reUpperMatch t = false)
  ∧ (∀ t : String, noUpperB t = true →
      anySubOf technical_indicators (lowerStr t) = false →
      anySubOf business_indicators (lowerStr t) = false →
      classifyTechB t = reWordDotMatch t) := by
  refine ⟨?_, fun t ht => reUpperMatch_eq_false_of_noUpper ht, ?_⟩
  · intro s hs
    have hjd : s ∈ jdTokens jd := by
      cases resume_json with
      | none =>
        simp [score_ats] at hs
      | some r =>
        by_cases hg : stripStr (_flatten_resume r) = "" ∨
            (stripStr (_flatten_resume r)).length < 20
        · simp [score_ats, hg] at hs
        · have h20 : 20 ≤ (stripStr (_flatten_resume r)).length := by
            rcases not_or.mp hg with ⟨_, h2⟩
            omega
          rw [score_ats_some current_year r jd h20] at hs
          simp only [mainScoreResult] at hs
          rcases hs with hs | hs | hs
          · have h1 := List.take_subset _ _ hs
            rw [categorize_eq_filter] at h1
            exact (mem_interList.mp (List.mem_filter.mp h1).1).2
          · have h1 := List.take_subset _ _ hs
            rw [categorize_eq_filter] at h1
            exact (mem_interList.mp (List.mem_filter.mp h1).1).2
          · have h1 := List.take_subset _ _ hs
            exact (mem_diffList.mp h1).1
    have htok : s ∈ _tokenize jd := List.mem_dedup.mp hjd
    exact ⟨noUpper_of_mem_tokenize htok, htok⟩
  · intro t ht htech hbiz
    have hre := reUpperMatch_eq_false_of_noUpper ht
    simp [classifyTechB, htech, hbiz, hre]

/-- Witness for C10 at a concrete scoring run: the reported missing keyword
`"node.js"` is an uppercase-free JD token, and (being in neither
vocabulary) it is classified by its `word.word` shape. -/
theorem c10_lowercase_categorization_witness :
    noUpperB "node.js" = true
  ∧ "node.js" ∈ _tokenize "python node.js"
  ∧ classifyTechB "node.js" = reWordDotMatch "node.js" := by
  have hmem : "node.js" ∈ (score_ats 2026
      (some { summary := "a python developer with experience" })
      "python node.js").missing_keywords := by decide
  obtain ⟨h1, h2⟩ := (c10_lowercase_categorization 2026
    (some { summary := "a python developer with experience" })
    "python node.js").1 "node.js" (Or.inr (Or.inr hmem))
  refine ⟨h1, h2, ?_⟩
  exact (c10_lowercase_categorization 2026 none "").2.2 "node.js" h1
    (by decide) (by decide)
